import Mathlib

/-!
Shallow embedding of the aggregation pipeline of `src/app.py`, an IPL
player-analytics dashboard built on pandas.

Conventions of the embedding:

* A dataframe is a `List` of structures, one structure per row.
* Identifier-valued columns (player names, season labels) are embedded
  as abstract `Nat` keys: the code only compares, groups and sorts
  them.  Nullable columns (`batsman`, `bowler`, `season` can be missing
  in a CSV row; the code calls `.dropna()` on them) are `Option Nat`.
* Float `NaN`/`±inf` is embedded as `none` in `Option ℚ` exactly at the
  places where the pandas code can produce a non-finite value; a plain
  `ℚ` field is one the code can only ever fill with a finite number.
* pandas sample standard deviation needs a real square root, which has
  no rational value; it is embedded through an abstract parameter
  `sqrtQ : ℚ → ℚ` and every theorem about the consistency index holds
  for all choices of `sqrtQ`.
* `groupby` sorts its keys and drops null keys (pandas defaults), so a
  grouped table is a `map` over the sorted deduplicated non-null keys.
* A pandas left merge against a right table whose key column is unique
  (every right table in this program is a `groupby` output, whose keys
  are unique by construction) is embedded as a `find?` lookup.
-/

structure MatchRow where
  id : Nat
  season : Option Nat
  deriving DecidableEq

/-- One ball-by-ball delivery row, after the normalisation step of
`src/app.py` (lines 43-57): canonical lower-case column names
`match_id`, `over`, `ball`, `batsman`, `bowler`, `batsman_runs`,
`is_wicket`. -/
structure Delivery where
  match_id : Nat
  over : Nat
  ball : Nat
  batsman : Option Nat
  bowler : Option Nat
  batsman_runs : Nat
  is_wicket : Nat
  deriving DecidableEq

/-- Sorted deduplicated list: the key list a pandas `groupby` (with its
default `sort=True, dropna=True`) iterates over, and also the value of
`sorted(series.dropna().unique())`. -/
def sortedDedup {α : Type} [LinearOrder α] (l : List α) : List α :=
  List.insertionSort (fun a b => a ≤ b) l.dedup

/-- `src/app.py` lines 70-72: ids of the matches of the selected season. -/
def seasonMatchIds (ms : List MatchRow) (s : Nat) : List Nat :=
  (ms.filter (fun m => m.season = some s)).map (fun m => m.id)

/-- `src/app.py` lines 74-76: deliveries of the selected season
(`deliveries_df[deliveries_df["match_id"].isin(season_match_ids)]`). -/
def seasonData (ms : List MatchRow) (deliveries : List Delivery) (s : Nat) :
    List Delivery :=
  deliveries.filter (fun d => d.match_id ∈ seasonMatchIds ms s)

/-- `src/app.py` line 78: `sorted(season_data["batsman"].dropna().unique())`. -/
def playersList (rows : List Delivery) : List Nat :=
  sortedDedup (rows.filterMap (fun d => d.batsman))

/-- The group keys of `season_data.groupby("batsman")`: sorted distinct
non-null batsman values. -/
def battingKeys (rows : List Delivery) : List Nat :=
  sortedDedup (rows.filterMap (fun d => d.batsman))

/-- The rows of one batsman's group. -/
def groupRows (rows : List Delivery) (p : Nat) : List Delivery :=
  rows.filter (fun d => d.batsman = some p)

/-- Distinct match ids a player batted in (`nunique` counts these, and
the `groupby(["batsman", "match_id"])` keys enumerate them). -/
def playerMatches (rows : List Delivery) (p : Nat) : List Nat :=
  sortedDedup ((groupRows rows p).map (fun d => d.match_id))

/-- One row of `batting_df` (`src/app.py` lines 96-104).  `strike_rate`
is `total_runs / balls_faced * 100`; with a zero `balls_faced` the
group sum is also 0 and float `0/0` is `NaN`, embedded as `none`. -/
structure BattingRow where
  batsman : Nat
  total_runs : Nat
  balls_faced : Nat
  innings : Nat
  strike_rate : Option ℚ
  deriving DecidableEq

def battingRowOf (rows : List Delivery) (p : Nat) : BattingRow :=
  { batsman := p
    total_runs := ((groupRows rows p).map (fun d => d.batsman_runs)).sum
    balls_faced := (groupRows rows p).length
    innings := (playerMatches rows p).length
    strike_rate :=
      if (groupRows rows p).length = 0 then none
      else some (((((groupRows rows p).map (fun d => d.batsman_runs)).sum : Nat) : ℚ) /
        ((groupRows rows p).length : ℚ) * 100) }

/-- `batting_df` of `src/app.py` lines 96-104: group `season_data` by
`batsman`; `total_runs = sum(batsman_runs)`, `balls_faced =
count(ball)` (the `ball` column is never null, so the count is the
group size), `innings = nunique(match_id)`, then the `strike_rate`
column. -/
def computeBatting (rows : List Delivery) : List BattingRow :=
  (battingKeys rows).map (battingRowOf rows)

structure BowlingRow where
  bowler : Nat
  wickets : Nat
  deriving DecidableEq

/-- `bowling_df` of `src/app.py` lines 106-109: filter to
`is_wicket == 1`, group by `bowler`, `size()` per group. -/
def computeBowling (rows : List Delivery) : List BowlingRow :=
  let wr := rows.filter (fun d => d.is_wicket = 1)
  (sortedDedup (wr.filterMap (fun d => d.bowler))).map
    (fun b => { bowler := b, wickets := (wr.filter (fun d => d.bowler = some b)).length })

/-- Per-innings runs of a player: `runs_match` of `src/app.py` lines
121-123 restricted to one batsman (the group-by-two-keys sums runs per
`(batsman, match_id)` pair). -/
def perInningsRuns (rows : List Delivery) (p : Nat) : List ℚ :=
  (playerMatches rows p).map
    (fun m => (((groupRows rows p).filter (fun d => d.match_id = m)).map
      (fun d => (d.batsman_runs : ℚ))).sum)

/-- pandas `Series.mean`.  Only evaluated on non-empty lists in this
program (every grouped player has at least one innings). -/
def listMean (xs : List ℚ) : ℚ := xs.sum / (xs.length : ℚ)

/-- pandas sample standard deviation (`ddof=1`): `NaN` (embedded as
`none`) when fewer than two observations, otherwise the square root of
`Σ (x - mean)² / (n - 1)`, with the square root abstracted as `sqrtQ`. -/
def sampleStd (sqrtQ : ℚ → ℚ) (xs : List ℚ) : Option ℚ :=
  if xs.length < 2 then none
  else some (sqrtQ ((xs.map (fun x => (x - listMean xs) ^ 2)).sum / ((xs.length : ℚ) - 1)))

/-- One row of `consistency` (`src/app.py` lines 125-132).
`consistency_index = (avg_runs / std_runs).replace([inf, -inf], 0).fillna(0)`:
a `none` (NaN) or zero standard deviation makes the raw ratio
non-finite, and both the `replace` and the `fillna` send it to 0. -/
structure ConsRow where
  batsman : Nat
  avg_runs : ℚ
  std_runs : Option ℚ
  consistency_index : ℚ
  deriving DecidableEq

def consRowOf (sqrtQ : ℚ → ℚ) (rows : List Delivery) (p : Nat) : ConsRow :=
  let xs := perInningsRuns rows p
  { batsman := p
    avg_runs := listMean xs
    std_runs := sampleStd sqrtQ xs
    consistency_index :=
      (((sampleStd sqrtQ xs).bind
        (fun s => if s = 0 then none else some (listMean xs / s))).getD 0) }

/-- `consistency` of `src/app.py` lines 121-132: per-innings runs per
`(batsman, match_id)` group, then mean and sample std per batsman.  Its
key list is the same sorted distinct non-null batsman list as
`batting_df`'s, since both group the same `season_data`. -/
def computeConsistency (sqrtQ : ℚ → ℚ) (rows : List Delivery) : List ConsRow :=
  (battingKeys rows).map (consRowOf sqrtQ rows)

/-- One row of `player_perf` after the two merges (`src/app.py` lines
111-116 and 134-138).  `strike_rate` became a plain number because of
the frame-wide `fillna(0)` on line 116 (the only non-finite value that
column can hold is the `NaN` of an empty group, which `fillna` zeroes);
`consistency_index` stays `Option` because no fill follows the second
merge, so a batsman missing from `consistency` would keep `NaN`. -/
structure PerfRow where
  batsman : Nat
  total_runs : Nat
  balls_faced : Nat
  innings : Nat
  strike_rate : ℚ
  wickets : Nat
  consistency_index : Option ℚ
  deriving DecidableEq

/-- The merges of `src/app.py` lines 111-116 (left merge with
`bowling_df` on `batsman = bowler`, then `fillna(0)`) and lines 134-138
(left merge with `consistency[["batsman", "consistency_index"]]`, no
fill).  The unused `bowler` key column of the first merge is dropped. -/
def mergePerformance (batting : List BattingRow) (bowling : List BowlingRow)
    (cons : List ConsRow) : List PerfRow :=
  batting.map (fun b =>
    { batsman := b.batsman
      total_runs := b.total_runs
      balls_faced := b.balls_faced
      innings := b.innings
      strike_rate := b.strike_rate.getD 0
      wickets := ((bowling.find? (fun w => w.bowler = b.batsman)).map
        (fun w => w.wickets)).getD 0
      consistency_index := (cons.find? (fun c => c.batsman = b.batsman)).map
        (fun c => c.consistency_index) })

structure FinalRow where
  batsman : Nat
  total_runs : Nat
  balls_faced : Nat
  innings : Nat
  strike_rate : ℚ
  wickets : Nat
  consistency_index : Option ℚ
  efficiency_score : Option ℚ
  deriving DecidableEq

/-- `src/app.py` lines 143-148: `efficiency_score = total_runs * 0.40 +
strike_rate * 0.30 + wickets * 0.20 + consistency_index * 0.10`.  The
only operand that can be `NaN` is `consistency_index`, and float `NaN`
propagates through `+` and `*`, hence the `Option.map`. -/
def computeEfficiency (rows : List PerfRow) : List FinalRow :=
  rows.map (fun r =>
    { batsman := r.batsman
      total_runs := r.total_runs
      balls_faced := r.balls_faced
      innings := r.innings
      strike_rate := r.strike_rate
      wickets := r.wickets
      consistency_index := r.consistency_index
      efficiency_score := r.consistency_index.map (fun ci =>
        (r.total_runs : ℚ) * 0.40 + r.strike_rate * 0.30 +
          (r.wickets : ℚ) * 0.20 + ci * 0.10) })

/-- The full `player_perf` table of `src/app.py` for one season
selection: season filter, batting/bowling/consistency aggregates, the
two merges and the efficiency column. -/
def playerPerf (sqrtQ : ℚ → ℚ) (ms : List MatchRow) (deliveries : List Delivery)
    (s : Nat) : List FinalRow :=
  computeEfficiency
    (mergePerformance
      (computeBatting (seasonData ms deliveries s))
      (computeBowling (seasonData ms deliveries s))
      (computeConsistency sqrtQ (seasonData ms deliveries s)))

/-- pandas mean with `skipna=True` over a possibly-NaN column: the mean
of the finite entries, `NaN` (`none`) when there are none. -/
def meanSkipNa (xs : List (Option ℚ)) : Option ℚ :=
  let v := xs.filterMap id
  if v.length = 0 then none else some (v.sum / (v.length : ℚ))

/-- pandas mean of a NaN-free column: `NaN` (`none`) exactly when the
column is empty. -/
def meanQ (xs : List ℚ) : Option ℚ :=
  if xs.length = 0 then none else some (xs.sum / (xs.length : ℚ))

/-- KPI of `src/app.py` line 183: `int(display_df["total_runs"].sum())`. -/
def kpiTotalRuns (rows : List FinalRow) : Nat :=
  (rows.map (fun r => r.total_runs)).sum

/-- KPI of `src/app.py` line 184: `display_df["strike_rate"].mean()`. -/
def kpiAvgStrikeRate (rows : List FinalRow) : Option ℚ :=
  meanQ (rows.map (fun r => r.strike_rate))

/-- KPI of `src/app.py` line 185: `int(display_df["wickets"].sum())`. -/
def kpiTotalWickets (rows : List FinalRow) : Nat :=
  (rows.map (fun r => r.wickets)).sum

/-- KPI of `src/app.py` line 186: `display_df["efficiency_score"].mean()`. -/
def kpiAvgEfficiency (rows : List FinalRow) : Option ℚ :=
  meanSkipNa (rows.map (fun r => r.efficiency_score))

/-- Sum of a player's runs over a slice of the deliveries. -/
def sumRunsBy (rows : List Delivery) (p : Nat) : Nat :=
  ((rows.filter (fun d => d.batsman = some p)).map (fun d => d.batsman_runs)).sum

/-- `pp` of `src/app.py` line 153: deliveries with `over <= 6`. -/
def ppRows (rows : List Delivery) : List Delivery :=
  rows.filter (fun d => d.over ≤ 6)

/-- `death` of `src/app.py` line 154: deliveries with `over >= 16`. -/
def deathRows (rows : List Delivery) : List Delivery :=
  rows.filter (fun d => 16 ≤ d.over)

structure OversRow where
  batsman : Nat
  powerplay_runs : Nat
  death_runs : Nat
  deriving DecidableEq

/-- `overs_df` of `src/app.py` lines 153-159: per-player run sums of the
two slices, outer-merged on `batsman` with `fillna(0)`.  A key present
on only one side sums an empty filter on the other side, which is the 0
the `fillna` writes.  The stated properties do not depend on row order,
so the outer-merge key order is embedded as left keys then right-only
keys. -/
def oversSplit (rows : List Delivery) : List OversRow :=
  let ppKeys := sortedDedup ((ppRows rows).filterMap (fun d => d.batsman))
  let dKeys := sortedDedup ((deathRows rows).filterMap (fun d => d.batsman))
  (ppKeys ++ dKeys.filter (fun k => ¬ k ∈ ppKeys)).map
    (fun p => { batsman := p
                powerplay_runs := sumRunsBy (ppRows rows) p
                death_runs := sumRunsBy (deathRows rows) p })

/-- The descending-by-key comparison used by
`sort_values(..., ascending=False)`. -/
def descRel {α κ : Type} [LinearOrder κ] (key : α → κ) : α → α → Prop :=
  fun a b => key b ≤ key a

instance {α κ : Type} [LinearOrder κ] (key : α → κ) : DecidableRel (descRel key) :=
  fun a b => inferInstanceAs (Decidable (key b ≤ key a))

instance {α κ : Type} [LinearOrder κ] (key : α → κ) : IsTotal α (descRel key) :=
  ⟨fun a b => le_total (key b) (key a)⟩

instance {α κ : Type} [LinearOrder κ] (key : α → κ) : IsTrans α (descRel key) :=
  ⟨fun _ _ _ h1 h2 => le_trans h2 h1⟩

/-- `sort_values(keys, ascending=False)`. -/
def sortDescBy {α κ : Type} [LinearOrder κ] (key : α → κ) (rows : List α) : List α :=
  List.insertionSort (descRel key) rows

/-- `sort_values(keys, ascending=False).head(n)`. -/
def topN {α κ : Type} [LinearOrder κ] (key : α → κ) (n : Nat) (rows : List α) : List α :=
  (sortDescBy key rows).take n

/-- Sort key of `best_batsmen` (`src/app.py` lines 164-166):
lexicographic on `(total_runs, strike_rate)`, both descending. -/
def batKey (r : FinalRow) : Lex (Nat × ℚ) :=
  toLex (r.total_runs, r.strike_rate)

/-- `best_batsmen` of `src/app.py` lines 164-166. -/
def bestBatsmen (rows : List FinalRow) : List FinalRow :=
  topN batKey 6 rows

/-- `best_bowlers` of `src/app.py` line 168. -/
def bestBowlers (rows : List BowlingRow) : List BowlingRow :=
  topN (fun w => w.wickets) 5 rows

/-- `player_perf[player_perf["batsman"] == p].iloc[0]` of `src/app.py`
lines 220-221: `iloc[0]` on the empty selection raises (IndexError),
embedded as `none` propagating to the caller. -/
def lookupPerf (perf : List FinalRow) (p : Nat) : Option FinalRow :=
  (perf.filter (fun r => r.batsman = p)).head?

/-- The comparison-tab lookup of both selected players (`src/app.py`
lines 220-221): it produces the pair of rows, or a failure when either
player has no row. -/
def comparePair (perf : List FinalRow) (p1 p2 : Nat) : Option (FinalRow × FinalRow) :=
  match lookupPerf perf p1, lookupPerf perf p2 with
  | some a, some b => some (a, b)
  | _, _ => none

def pA : Nat := 1
def pB : Nat := 2
def pZ : Nat := 99
def sY : Nat := 2020
def sN : Nat := 2019

/-- A one-match, one-season example: five balls by player A with runs
4, 1, 0, 6, 1 and no wickets, plus one wicket ball bowled by B to A.
-/
def exMatches : List MatchRow := [{ id := 1, season := some sY }]

def exDeliveries : List Delivery :=
  [{ match_id := 1, over := 1, ball := 1, batsman := some pA, bowler := some pB,
     batsman_runs := 4, is_wicket := 0 },
   { match_id := 1, over := 1, ball := 2, batsman := some pA, bowler := some pB,
     batsman_runs := 1, is_wicket := 0 }]

/-! ### Generic lemmas about the grouping combinators -/

theorem mem_sortedDedup {α : Type} [LinearOrder α] {l : List α} {a : α} :
    a ∈ sortedDedup l ↔ a ∈ l := by
  unfold sortedDedup
  rw [List.mem_insertionSort, List.mem_dedup]

theorem nodup_sortedDedup {α : Type} [LinearOrder α] (l : List α) :
    (sortedDedup l).Nodup :=
  (List.perm_insertionSort _ _).nodup_iff.mpr (List.nodup_dedup l)

theorem sorted_sortedDedup {α : Type} [LinearOrder α] (l : List α) :
    (sortedDedup l).Sorted (fun a b => a ≤ b) :=
  List.sorted_insertionSort _ _

theorem mem_battingKeys_iff {rows : List Delivery} {p : Nat} :
    p ∈ battingKeys rows ↔ ∃ d ∈ rows, d.batsman = some p := by
  unfold battingKeys
  rw [mem_sortedDedup, List.mem_filterMap]

theorem groupRows_ne_nil {rows : List Delivery} {p : Nat}
    (hp : p ∈ battingKeys rows) : groupRows rows p ≠ [] := by
  rcases mem_battingKeys_iff.mp hp with ⟨d, hd, hbd⟩
  have : d ∈ groupRows rows p := by
    unfold groupRows
    exact List.mem_filter.mpr ⟨hd, by simp [hbd]⟩
  intro h
  rw [h] at this
  exact absurd this (List.not_mem_nil d)

/-- `find?` over a keyed `map`: the first (hence, for the unique keys of
a `groupby` output, the only) hit at key `p` is the row built from `p`. -/
theorem find?_map_eq {κ β : Type} [DecidableEq κ] (f : κ → β) (g : β → κ)
    (hgf : ∀ k, g (f k) = k) :
    ∀ (keys : List κ) (p : κ), p ∈ keys →
      (keys.map f).find? (fun b => g b = p) = some (f p) := by
  intro keys
  induction keys with
  | nil => intro p hp; exact absurd hp (List.not_mem_nil p)
  | cons k ks ih =>
    intro p hp
    by_cases hkp : k = p
    · subst hkp
      simp [List.find?, hgf]
    · have hp' : p ∈ ks := by
        rcases List.mem_cons.mp hp with h | h
        · exact absurd h.symm hkp
        · exact h
      simpa [List.find?, hgf, hkp] using ih p hp'

theorem sum_map_eq_single {ks : List Nat} (hnd : ks.Nodup) {q : Nat} (hq : q ∈ ks)
    (c : Nat) : (ks.map (fun p => if q = p then c else 0)).sum = c := by
  induction ks with
  | nil => exact absurd hq (List.not_mem_nil q)
  | cons k ks ih =>
    rcases List.mem_cons.mp hq with h | h
    · subst h
      have hz : (ks.map (fun p => if q = p then c else 0)).sum = 0 := by
        apply List.sum_eq_zero
        intro x hx
        rcases List.mem_map.mp hx with ⟨p, hp, hpx⟩
        have : q ≠ p := fun hqp => (List.nodup_cons.mp hnd).1 (hqp ▸ hp)
        simpa [this] using hpx.symm
      simp [hz]
    · have hqk : q ≠ k := fun hqk => (List.nodup_cons.mp hnd).1 (hqk ▸ h)
      simp [hqk, ih (List.nodup_cons.mp hnd).2 h]

/-- Splitting one batsman's group sum over a cons cell. -/
theorem groupRunsSum_cons (d : Delivery) (rows : List Delivery) (p : Nat) :
    ((groupRows (d :: rows) p).map (fun x => x.batsman_runs)).sum
      = (if d.batsman = some p then d.batsman_runs else 0)
        + ((groupRows rows p).map (fun x => x.batsman_runs)).sum := by
  unfold groupRows
  rw [List.filter_cons]
  by_cases h : d.batsman = some p
  · simp [h]
  · simp [h]

/-- The sum of the per-group run totals over any complete duplicate-free
key list equals the sum of runs over the rows with a non-null batsman:
rows with a null key are dropped by `groupby` and belong to no group. -/
theorem sum_groups_eq : ∀ (rows : List Delivery) (ks : List Nat), ks.Nodup →
    (∀ d ∈ rows, ∀ q, d.batsman = some q → q ∈ ks) →
    (ks.map (fun p => ((groupRows rows p).map (fun d => d.batsman_runs)).sum)).sum
      = ((rows.filter (fun d => d.batsman ≠ none)).map (fun d => d.batsman_runs)).sum := by
  intro rows
  induction rows with
  | nil => intro ks _ _; simp [groupRows]
  | cons d rows ih =>
    intro ks hnd hcov
    have hsplit : (ks.map (fun p =>
        ((groupRows (d :: rows) p).map (fun x => x.batsman_runs)).sum)).sum
        = (ks.map (fun p => (if d.batsman = some p then d.batsman_runs else 0)
            + ((groupRows rows p).map (fun x => x.batsman_runs)).sum)).sum := by
      congr 1
      exact List.map_congr_left (fun p _ => groupRunsSum_cons d rows p)
    rw [hsplit, List.sum_map_add]
    have htail := ih ks hnd (fun x hx q hq => hcov x (List.mem_cons_of_mem d hx) q hq)
    rw [List.filter_cons]
    cases hb : d.batsman with
    | none =>
      have : (ks.map (fun p => if d.batsman = some p then d.batsman_runs else 0)).sum = 0 := by
        apply List.sum_eq_zero
        intro x hx
        rcases List.mem_map.mp hx with ⟨p, _, hpx⟩
        simpa [hb] using hpx.symm
      simp only [this, htail, hb]
      simp
    | some q =>
      have hqks : q ∈ ks := hcov d (List.mem_cons_self d rows) q hb
      have : (ks.map (fun p => if d.batsman = some p then d.batsman_runs else 0)).sum
          = d.batsman_runs := by
        have he : (fun p => if d.batsman = some p then d.batsman_runs else 0)
            = (fun p => if q = p then d.batsman_runs else 0) := by
          funext p
          simp [hb]
        rw [he]
        exact sum_map_eq_single hnd hqks d.batsman_runs
      simp only [this, htail, hb]
      simp
      exact sum_map_eq_single hnd hqks d.batsman_runs

def exNullBat : List Delivery :=
  [{ match_id := 1, over := 1, ball := 1, batsman := none, bowler := some pB,
     batsman_runs := 4, is_wicket := 0 }]

/-- Claim C9 (counterexample): on a delivery subset holding one row with
a null batting-player identifier and 4 runs, the batting aggregate is
empty (pandas `groupby` drops null keys), so the sum of `total_runs`
over all groups is 0 while the sum of the `runs` field over the subset
is 4 — the claimed equality fails for this subset. -/
theorem c9_counterexample :
    ((computeBatting exNullBat).map (fun r => r.total_runs)).sum = 0 ∧
    (exNullBat.map (fun d => d.batsman_runs)).sum = 4 ∧
    ¬ ((computeBatting exNullBat).map (fun r => r.total_runs)).sum
        = (exNullBat.map (fun d => d.batsman_runs)).sum := by
  refine ⟨by decide, by decide, by decide⟩

/-- Claim C9 (amended): for every subset of the delivery table, the sum
of `total_runs` over all groups of the batting aggregate equals the sum
of the `runs` field over the rows of that subset whose batting-player
identifier is non-null (equivalently: over exactly that subset whenever
no row of it has a null batting-player identifier). -/
theorem c9_conservation (rows : List Delivery) :
    ((computeBatting rows).map (fun r => r.total_runs)).sum
      = ((rows.filter (fun d => d.batsman ≠ none)).map (fun d => d.batsman_runs)).sum := by
  have h1 : (computeBatting rows).map (fun r => r.total_runs)
      = (battingKeys rows).map
        (fun p => ((groupRows rows p).map (fun d => d.batsman_runs)).sum) := by
    unfold computeBatting
    rw [List.map_map]
    rfl
  rw [h1]
  exact sum_groups_eq rows (battingKeys rows) (nodup_sortedDedup _)
    (fun d hd q hq => mem_battingKeys_iff.mpr ⟨d, hd, hq⟩)

/-! ### Claim C1: the batting aggregate -/

def fTotalRuns : String := "total_runs"
def fBallsFaced : String := "balls_faced"
def fFours : String := "fours"
def fSixes : String := "sixes"
def fInnings : String := "innings"
def fStrikeRate : String := "strike_rate"

/-- The value columns of one `batting_df` row, as the column-name-keyed
view a consumer of the dataframe sees.  The aggregation of `src/app.py`
lines 96-104 creates exactly `total_runs`, `balls_faced`, `innings` and
`strike_rate`. -/
def battingRowFields (r : BattingRow) : List (String × Option ℚ) :=
  [(fTotalRuns, some (r.total_runs : ℚ)),
   (fBallsFaced, some (r.balls_faced : ℚ)),
   (fInnings, some (r.innings : ℚ)),
   (fStrikeRate, r.strike_rate)]

structure BattingRowClaim where
  batsman : Nat
  total_runs : Nat
  balls_faced : Nat
  fours : Nat
  sixes : Nat
  innings : Nat
  strike_rate : Option ℚ
  deriving DecidableEq

/-- The batting aggregate as the spec's `computeBatting` describes it,
including the `fours` and `sixes` columns and the guarded strike rate.
Stated from the spec's words purely for comparison with the code's
`computeBatting`. -/
def computeBattingClaim (rows : List Delivery) : List BattingRowClaim :=
  (battingKeys rows).map (fun p =>
    { batsman := p
      total_runs := ((groupRows rows p).map (fun d => d.batsman_runs)).sum
      balls_faced := (groupRows rows p).length
      fours := ((groupRows rows p).filter (fun d => d.batsman_runs = 4)).length
      sixes := ((groupRows rows p).filter (fun d => d.batsman_runs = 6)).length
      innings := (playerMatches rows p).length
      strike_rate :=
        if (groupRows rows p).length = 0 then some 0
        else some (((((groupRows rows p).map (fun d => d.batsman_runs)).sum : Nat) : ℚ) /
          ((groupRows rows p).length : ℚ) * 100) })

/-- The value columns of one row of the spec-described batting
aggregate. -/
def battingRowClaimFields (r : BattingRowClaim) : List (String × Option ℚ) :=
  [(fTotalRuns, some (r.total_runs : ℚ)),
   (fBallsFaced, some (r.balls_faced : ℚ)),
   (fFours, some (r.fours : ℚ)),
   (fSixes, some (r.sixes : ℚ)),
   (fInnings, some (r.innings : ℚ)),
   (fStrikeRate, r.strike_rate)]

/-- Claim C1 (counterexample): on a concrete two-delivery table (player
A scoring 4 and 1), the column view of the code's batting aggregate is
not the column view the claim describes: the code computes no `fours`
and no `sixes` column. -/
theorem c1_counterexample :
    ¬ ((computeBatting exDeliveries).map battingRowFields
        = (computeBattingClaim exDeliveries).map battingRowClaimFields) := by
  intro h
  have h2 := congrArg (fun t => t.map (fun row => row.map (fun f => f.fst))) h
  simp only [List.map_map] at h2
  exact absurd h2 (by decide)

/-- Claim C1 (amended): `computeBatting` groups the rows by the non-null
batting-player identifiers, and for every group produces `total_runs`
as the sum of the runs field, `balls_faced` as the count of rows of the
group (which is positive, so the zero-guard case of the strike rate
never occurs), `innings` as the count of distinct match identifiers of
the group, and `strike_rate = total_runs / balls_faced * 100`; no
`fours` or `sixes` column is produced in this variant. -/
theorem c1_batting (rows : List Delivery) :
    computeBatting rows = (battingKeys rows).map (battingRowOf rows) ∧
    (∀ p, p ∈ battingKeys rows ↔ ∃ d ∈ rows, d.batsman = some p) ∧
    ∀ p, p ∈ battingKeys rows →
      (battingRowOf rows p).total_runs
          = ((groupRows rows p).map (fun d => d.batsman_runs)).sum ∧
      (battingRowOf rows p).balls_faced = (groupRows rows p).length ∧
      (battingRowOf rows p).innings
          = (((groupRows rows p).map (fun d => d.match_id)).dedup).length ∧
      0 < (battingRowOf rows p).balls_faced ∧
      (battingRowOf rows p).strike_rate
          = some (((((groupRows rows p).map (fun d => d.batsman_runs)).sum : Nat) : ℚ)
              / ((groupRows rows p).length : ℚ) * 100) := by
  refine ⟨rfl, fun p => mem_battingKeys_iff, fun p hp => ?_⟩
  have hne : groupRows rows p ≠ [] := groupRows_ne_nil hp
  have hpos : 0 < (groupRows rows p).length := List.length_pos.mpr hne
  have hlen : (groupRows rows p).length ≠ 0 := Nat.pos_iff_ne_zero.mp hpos
  refine ⟨rfl, rfl, ?_, ?_, ?_⟩
  · show (playerMatches rows p).length = _
    unfold playerMatches sortedDedup
    exact (List.perm_insertionSort _ _).length_eq
  · exact hpos
  · show (battingRowOf rows p).strike_rate = _
    unfold battingRowOf
    simp [hlen]

theorem c1_witness :
    pA ∈ battingKeys exDeliveries ∧
    (battingRowOf exDeliveries pA).total_runs
      = ((groupRows exDeliveries pA).map (fun d => d.batsman_runs)).sum ∧
    0 < (battingRowOf exDeliveries pA).balls_faced :=
  ⟨by decide, ((c1_batting exDeliveries).2.2 pA (by decide)).1,
    ((c1_batting exDeliveries).2.2 pA (by decide)).2.2.2.1⟩

/-! ### Claim C2: the merges -/

def exBattingA : List BattingRow :=
  [{ batsman := pA, total_runs := 10, balls_faced := 5, innings := 1,
     strike_rate := some 200 }]

/-- Claim C2 (counterexample): merging a one-row batting aggregate with
an empty bowling aggregate and an empty consistency aggregate keeps the
batting row, but the player — absent from the consistency aggregate —
gets a missing (`NaN`) `consistency_index`, not the claimed 0: no fill
follows the second merge in `src/app.py`. -/
theorem c2_counterexample :
    (∀ c ∈ ([] : List ConsRow), c.batsman ≠ pA) ∧
    (mergePerformance exBattingA [] []).map (fun r => r.consistency_index) = [none] ∧
    ¬ (mergePerformance exBattingA [] []).map (fun r => r.consistency_index)
        = [some 0] := by
  refine ⟨by simp, by decide, by decide⟩

/-- Claim C2 (amended): `mergePerformance` left-joins batting with
bowling and then with consistency on the player identifier; every
player of the batting aggregate appears in the output (in order, no
row dropped), a player absent from the bowling aggregate gets
`wickets = 0`, and a player absent from the consistency aggregate gets
a missing (`NaN`) `consistency_index` — not 0, since no fill follows
the second merge (in the pipeline this case never arises, because the
consistency aggregate covers every batting player). -/
theorem c2_merge (batting : List BattingRow) (bowling : List BowlingRow)
    (cons : List ConsRow) :
    (mergePerformance batting bowling cons).map (fun r => r.batsman)
        = batting.map (fun b => b.batsman) ∧
    (∀ r ∈ mergePerformance batting bowling cons,
      (∀ w ∈ bowling, w.bowler ≠ r.batsman) → r.wickets = 0) ∧
    (∀ r ∈ mergePerformance batting bowling cons,
      (∀ c ∈ cons, c.batsman ≠ r.batsman) → r.consistency_index = none) := by
  refine ⟨?_, ?_, ?_⟩
  · unfold mergePerformance
    rw [List.map_map]
    rfl
  · intro r hr habs
    unfold mergePerformance at hr
    rcases List.mem_map.mp hr with ⟨b, _, rfl⟩
    have hnone : bowling.find? (fun w => w.bowler = b.batsman) = none := by
      rw [List.find?_eq_none]
      intro w hw
      simpa using habs w hw
    simp [hnone]
  · intro r hr habs
    unfold mergePerformance at hr
    rcases List.mem_map.mp hr with ⟨b, _, rfl⟩
    have hnone : cons.find? (fun c => c.batsman = b.batsman) = none := by
      rw [List.find?_eq_none]
      intro c hc
      simpa using habs c hc
    simp [hnone]

theorem c2_witness :
    ∃ r ∈ mergePerformance exBattingA [] [], r.wickets = 0 ∧ r.consistency_index = none := by
  refine ⟨{ batsman := pA, total_runs := 10, balls_faced := 5, innings := 1,
            strike_rate := 200, wickets := 0, consistency_index := none },
    by decide, ?_, ?_⟩
  · exact (c2_merge exBattingA [] []).2.1 _ (by decide) (by simp)
  · exact (c2_merge exBattingA [] []).2.2 _ (by decide) (by simp)

/-! ### The shape of a `player_perf` row -/

/-- The merged table, written as one `map` over the batting group keys.
Pure reassociation of the three `map`s of the pipeline. -/
theorem playerPerf_eq (sqrtQ : ℚ → ℚ) (ms : List MatchRow) (ds : List Delivery) (s : Nat) :
    playerPerf sqrtQ ms ds s
      = (battingKeys (seasonData ms ds s)).map (fun p =>
          ({
            batsman := p,
            total_runs := (battingRowOf (seasonData ms ds s) p).total_runs,
            balls_faced := (battingRowOf (seasonData ms ds s) p).balls_faced,
            innings := (battingRowOf (seasonData ms ds s) p).innings,
            strike_rate := (battingRowOf (seasonData ms ds s) p).strike_rate.getD 0,
            wickets := (((computeBowling (seasonData ms ds s)).find?
                (fun w => w.bowler = p)).map (fun w => w.wickets)).getD 0,
            consistency_index := ((computeConsistency sqrtQ (seasonData ms ds s)).find?
                (fun c => c.batsman = p)).map (fun c => c.consistency_index),
            efficiency_score :=
              (((computeConsistency sqrtQ (seasonData ms ds s)).find?
                  (fun c => c.batsman = p)).map (fun c => c.consistency_index)).map
                (fun ci => ((battingRowOf (seasonData ms ds s) p).total_runs : ℚ) * 0.40 +
                  (battingRowOf (seasonData ms ds s) p).strike_rate.getD 0 * 0.30 +
                  (((((computeBowling (seasonData ms ds s)).find?
                      (fun w => w.bowler = p)).map (fun w => w.wickets)).getD 0 : Nat) : ℚ) * 0.20 +
                  ci * 0.10) } : FinalRow)) := by
  unfold playerPerf computeEfficiency mergePerformance computeBatting
  rw [List.map_map, List.map_map]
  rfl

/-- Any row of the merged `player_perf` table comes from a batting group
key `p`, with its fields determined by the three aggregates at `p`.  In
particular `consistency_index` is always present (`some`): the
consistency aggregate is keyed by the same batsman list as the batting
aggregate, so the left join always finds a partner. -/
theorem mem_playerPerf_elim {sqrtQ : ℚ → ℚ} {ms : List MatchRow} {ds : List Delivery}
    {s : Nat} {r : FinalRow} (hr : r ∈ playerPerf sqrtQ ms ds s) :
    ∃ p ∈ battingKeys (seasonData ms ds s),
      r.batsman = p ∧
      r.total_runs = (battingRowOf (seasonData ms ds s) p).total_runs ∧
      r.balls_faced = (battingRowOf (seasonData ms ds s) p).balls_faced ∧
      r.innings = (battingRowOf (seasonData ms ds s) p).innings ∧
      r.strike_rate = (battingRowOf (seasonData ms ds s) p).strike_rate.getD 0 ∧
      r.wickets = (((computeBowling (seasonData ms ds s)).find?
          (fun w => w.bowler = p)).map (fun w => w.wickets)).getD 0 ∧
      r.consistency_index
          = some (consRowOf sqrtQ (seasonData ms ds s) p).consistency_index ∧
      r.efficiency_score
          = some ((r.total_runs : ℚ) * 0.40 + r.strike_rate * 0.30 +
              (r.wickets : ℚ) * 0.20 +
              (consRowOf sqrtQ (seasonData ms ds s) p).consistency_index * 0.10) := by
  rw [playerPerf_eq] at hr
  rcases List.mem_map.mp hr with ⟨p, hp, rfl⟩
  have hfind : (computeConsistency sqrtQ (seasonData ms ds s)).find?
      (fun c => c.batsman = p) = some (consRowOf sqrtQ (seasonData ms ds s) p) := by
    unfold computeConsistency
    exact find?_map_eq (consRowOf sqrtQ (seasonData ms ds s)) (fun c => c.batsman)
      (fun _ => rfl) (battingKeys (seasonData ms ds s)) p hp
  refine ⟨p, hp, rfl, rfl, rfl, rfl, rfl, rfl, ?_, ?_⟩
  · simp only [hfind]
    rfl
  · simp only [hfind]
    rfl

/-- The `player_perf` row of player A in the example season: 5 runs off
2 balls in 1 innings, strike rate 250, no wickets, consistency index 0
(single innings), efficiency `5*0.40 + 250*0.30 = 77`. -/
def exRowA : FinalRow :=
  { batsman := pA, total_runs := 5, balls_faced := 2, innings := 1,
    strike_rate := 250, wickets := 0, consistency_index := some 0,
    efficiency_score := some 77 }

theorem exPerf_eval : playerPerf (fun q => q) exMatches exDeliveries sY = [exRowA] := by
  norm_num [playerPerf, seasonData, seasonMatchIds, exMatches, exDeliveries, sY, pA, pB,
    exRowA, computeBatting, battingKeys, battingRowOf, groupRows, playerMatches, sortedDedup,
    computeBowling, computeConsistency, consRowOf, perInningsRuns, listMean, sampleStd,
    mergePerformance, computeEfficiency, List.dedup, List.insertionSort, List.orderedInsert,
    List.filter, List.filterMap, List.find?]

/-! ### Claims C3 and C6: derived-metric guards and the efficiency formula -/

/-- Claim C3: in the merged table, `strike_rate` is 0 whenever
`balls_faced` is 0 (the frame-wide `fillna(0)` after the bowling merge
zeroes the `0/0` NaN), and otherwise the finite value
`total_runs / balls_faced * 100`; `consistency_index` is present
(never NaN) and is 0 whenever the player has fewer than 2 innings or
the sample standard deviation of the per-innings runs is undefined
(`none`) or 0. -/
theorem c3_division_guards (sqrtQ : ℚ → ℚ) (ms : List MatchRow) (ds : List Delivery)
    (s : Nat) : ∀ r ∈ playerPerf sqrtQ ms ds s,
    (r.balls_faced = 0 → r.strike_rate = 0) ∧
    (r.innings < 2 → r.consistency_index = some 0) ∧
    ((sampleStd sqrtQ (perInningsRuns (seasonData ms ds s) r.batsman) = none ∨
        sampleStd sqrtQ (perInningsRuns (seasonData ms ds s) r.batsman) = some 0) →
      r.consistency_index = some 0) ∧
    r.consistency_index ≠ none ∧
    (r.balls_faced ≠ 0 →
      r.strike_rate = (r.total_runs : ℚ) / (r.balls_faced : ℚ) * 100) := by
  intro r hr
  rcases mem_playerPerf_elim hr with ⟨p, hp, hbat, htot, hballs, hinn, hsr, hw, hci, heff⟩
  have hbf : (battingRowOf (seasonData ms ds s) p).balls_faced
      = (groupRows (seasonData ms ds s) p).length := rfl
  have hsrval : (battingRowOf (seasonData ms ds s) p).strike_rate
      = (if (groupRows (seasonData ms ds s) p).length = 0 then none
        else some (((((groupRows (seasonData ms ds s) p).map
            (fun d => d.batsman_runs)).sum : Nat) : ℚ) /
          ((groupRows (seasonData ms ds s) p).length : ℚ) * 100)) := rfl
  have hcival : (consRowOf sqrtQ (seasonData ms ds s) p).consistency_index
      = ((sampleStd sqrtQ (perInningsRuns (seasonData ms ds s) p)).bind
          (fun v => if v = 0 then none
            else some (listMean (perInningsRuns (seasonData ms ds s) p) / v))).getD 0 := rfl
  refine ⟨?_, ?_, ?_, ?_, ?_⟩
  · intro h0
    rw [hballs, hbf] at h0
    rw [hsr, hsrval, h0]
    simp
  · intro h2
    have hxslen : (perInningsRuns (seasonData ms ds s) p).length
        = (playerMatches (seasonData ms ds s) p).length := List.length_map _ _
    have hxs : (perInningsRuns (seasonData ms ds s) p).length < 2 := by
      rw [hxslen]
      have : r.innings = (playerMatches (seasonData ms ds s) p).length := hinn
      rw [← this]
      exact h2
    have hstd : sampleStd sqrtQ (perInningsRuns (seasonData ms ds s) p) = none := by
      unfold sampleStd
      rw [if_pos hxs]
    rw [hci, hcival, hstd]
    simp
  · intro hcase
    rw [hbat] at hcase
    rcases hcase with hstd | hstd
    · rw [hci, hcival, hstd]
      simp
    · rw [hci, hcival, hstd]
      simp
  · rw [hci]
    simp
  · intro hne
    rw [hballs, hbf] at hne
    rw [hsr, hsrval, if_neg hne, htot, hballs]
    rfl

theorem c3_witness :
    exRowA.consistency_index = some 0 ∧
    exRowA.consistency_index ≠ none ∧
    exRowA.strike_rate = (exRowA.total_runs : ℚ) / (exRowA.balls_faced : ℚ) * 100 := by
  have h := c3_division_guards (fun q => q) exMatches exDeliveries sY exRowA
    (by rw [exPerf_eval]; exact List.mem_cons_self _ _)
  exact ⟨h.2.1 (by decide), h.2.2.2.1, h.2.2.2.2 (by decide)⟩

/-- Claim C6: every row of the merged performance table carries
`efficiency_score = total_runs * 0.40 + strike_rate * 0.30 +
wickets * 0.20 + consistency_index * 0.10` — the with-consistency
weight preset of this variant — with a present (non-NaN) consistency
index feeding the last term. -/
theorem c6_efficiency (sqrtQ : ℚ → ℚ) (ms : List MatchRow) (ds : List Delivery)
    (s : Nat) : ∀ r ∈ playerPerf sqrtQ ms ds s,
    ∃ ci : ℚ, r.consistency_index = some ci ∧
      r.efficiency_score = some ((r.total_runs : ℚ) * 0.40 + r.strike_rate * 0.30 +
        (r.wickets : ℚ) * 0.20 + ci * 0.10) := by
  intro r hr
  rcases mem_playerPerf_elim hr with ⟨p, _, _, _, _, _, _, _, hci, heff⟩
  exact ⟨_, hci, heff⟩

theorem c6_witness :
    ∃ ci : ℚ, exRowA.consistency_index = some ci ∧
      exRowA.efficiency_score = some ((exRowA.total_runs : ℚ) * 0.40 +
        exRowA.strike_rate * 0.30 + (exRowA.wickets : ℚ) * 0.20 + ci * 0.10) :=
  c6_efficiency (fun q => q) exMatches exDeliveries sY exRowA
    (by rw [exPerf_eval]; exact List.mem_cons_self _ _)

/-! ### Claims C4 and C5: empty season and unknown player -/

/-- Claim C4 (counterexample): with the example Match table (season
2020 only) and season 2019 selected, the season filter yields the empty
sequence without error and the sums over the empty table are 0 — but
the KPI mean of `strike_rate` over the empty table is `NaN` (`none`),
not the claimed 0: pandas' mean of an empty column is `NaN`. -/
theorem c4_counterexample :
    (∀ m ∈ exMatches, m.season ≠ some sN) ∧
    seasonData exMatches exDeliveries sN = [] ∧
    kpiTotalRuns (playerPerf (fun q => q) exMatches exDeliveries sN) = 0 ∧
    kpiAvgStrikeRate (playerPerf (fun q => q) exMatches exDeliveries sN) = none ∧
    ¬ kpiAvgStrikeRate (playerPerf (fun q => q) exMatches exDeliveries sN) = some 0 := by
  refine ⟨by decide, by decide, by decide, by decide, by decide⟩

/-- Claim C4 (amended): a season matching zero Match rows yields the
empty delivery sequence (no error), every downstream aggregate is the
empty table, and the KPI sums over the empty table are 0; the KPI means
over the empty table, however, are `NaN` (missing), not 0.  (The case
is unreachable from the UI, whose season choices come from the Match
table itself.) -/
theorem c4_empty_season (sqrtQ : ℚ → ℚ) (ms : List MatchRow) (ds : List Delivery)
    (s : Nat) (h : ∀ m ∈ ms, m.season ≠ some s) :
    seasonData ms ds s = [] ∧
    playerPerf sqrtQ ms ds s = [] ∧
    kpiTotalRuns (playerPerf sqrtQ ms ds s) = 0 ∧
    kpiTotalWickets (playerPerf sqrtQ ms ds s) = 0 ∧
    kpiAvgStrikeRate (playerPerf sqrtQ ms ds s) = none ∧
    kpiAvgEfficiency (playerPerf sqrtQ ms ds s) = none := by
  have hids : seasonMatchIds ms s = [] := by
    unfold seasonMatchIds
    rw [List.filter_eq_nil_iff.mpr]
    · rfl
    · intro m hm
      simpa using h m hm
  have hsd : seasonData ms ds s = [] := by
    unfold seasonData
    apply List.filter_eq_nil_iff.mpr
    intro d _
    simp [hids]
  have hpp : playerPerf sqrtQ ms ds s = [] := by
    rw [playerPerf_eq, hsd]
    rfl
  refine ⟨hsd, hpp, ?_, ?_, ?_, ?_⟩ <;> rw [hpp] <;> rfl

theorem c4_witness :
    seasonData exMatches exDeliveries sN = [] ∧
    playerPerf (fun q => q) exMatches exDeliveries sN = [] ∧
    kpiTotalRuns (playerPerf (fun q => q) exMatches exDeliveries sN) = 0 ∧
    kpiTotalWickets (playerPerf (fun q => q) exMatches exDeliveries sN) = 0 ∧
    kpiAvgStrikeRate (playerPerf (fun q => q) exMatches exDeliveries sN) = none ∧
    kpiAvgEfficiency (playerPerf (fun q => q) exMatches exDeliveries sN) = none :=
  c4_empty_season (fun q => q) exMatches exDeliveries sN (by decide)

/-- Claim C5: the comparison lookup over a performance table that has
no row for one of the two requested players produces the failure value
(the empty-selection `iloc[0]` raises, which the embedding renders as
`none` propagating to the caller) — it does not produce a pair, and in
particular not a pair of zero rows. -/
theorem c5_compare_not_found (perf : List FinalRow) (p1 p2 : Nat) :
    ((∀ r ∈ perf, r.batsman ≠ p1) → comparePair perf p1 p2 = none) ∧
    ((∀ r ∈ perf, r.batsman ≠ p2) → comparePair perf p1 p2 = none) := by
  have hlk : ∀ q, (∀ r ∈ perf, r.batsman ≠ q) → lookupPerf perf q = none := by
    intro q hq
    unfold lookupPerf
    rw [List.filter_eq_nil_iff.mpr]
    · rfl
    · intro r hr
      simpa using hq r hr
  constructor
  · intro h
    cases hl2 : lookupPerf perf p2 <;> simp [comparePair, hlk p1 h, hl2]
  · intro h
    cases hl1 : lookupPerf perf p1 <;> simp [comparePair, hlk p2 h, hl1]

theorem c5_witness :
    comparePair [exRowA] pZ pA = none ∧ comparePair [exRowA] pA pZ = none :=
  ⟨(c5_compare_not_found [exRowA] pZ pA).1 (by decide),
    (c5_compare_not_found [exRowA] pA pZ).2 (by decide)⟩

/-! ### Claim C7: the powerplay/death-overs split -/

/-- Claim C7: `oversSplit` computes two per-player run sums — one over
deliveries with `over ≤ 6`, one over deliveries with `over ≥ 16` —
outer-joined on the player identifier with a missing side filled to 0;
a player appears in the output exactly when one of the two slices holds
a delivery of theirs, and deliveries with `over` in `[7, 15]` influence
nothing: the whole output is unchanged when they are removed. -/
theorem c7_overs_split (rows : List Delivery) :
    oversSplit rows = oversSplit (rows.filter (fun d => d.over ≤ 6 ∨ 16 ≤ d.over)) ∧
    (∀ r ∈ oversSplit rows,
      r.powerplay_runs = ((rows.filter (fun d => d.batsman = some r.batsman ∧ d.over ≤ 6)).map
        (fun d => d.batsman_runs)).sum ∧
      r.death_runs = ((rows.filter (fun d => d.batsman = some r.batsman ∧ 16 ≤ d.over)).map
        (fun d => d.batsman_runs)).sum) ∧
    (∀ p : Nat, (∃ r ∈ oversSplit rows, r.batsman = p) ↔
      ∃ d ∈ rows, d.batsman = some p ∧ (d.over ≤ 6 ∨ 16 ≤ d.over)) := by
  have hpp : ppRows (rows.filter (fun d => d.over ≤ 6 ∨ 16 ≤ d.over)) = ppRows rows := by
    unfold ppRows
    rw [List.filter_filter]
    apply List.filter_congr
    intro d _
    by_cases h : d.over ≤ 6 <;> simp [h]
  have hdd : deathRows (rows.filter (fun d => d.over ≤ 6 ∨ 16 ≤ d.over)) = deathRows rows := by
    unfold deathRows
    rw [List.filter_filter]
    apply List.filter_congr
    intro d _
    by_cases h : 16 ≤ d.over <;> simp [h]
  refine ⟨?_, ?_, ?_⟩
  · unfold oversSplit
    rw [hpp, hdd]
  · intro r hr
    unfold oversSplit at hr
    rcases List.mem_map.mp hr with ⟨p, _, rfl⟩
    constructor
    · show sumRunsBy (ppRows rows) p
          = ((rows.filter (fun d => d.batsman = some p ∧ d.over ≤ 6)).map
            (fun d => d.batsman_runs)).sum
      unfold sumRunsBy ppRows
      rw [List.filter_filter]
      congr 1
      congr 1
      apply List.filter_congr
      intro d _
      by_cases h1 : d.batsman = some p <;> by_cases h2 : d.over ≤ 6 <;> simp [h1, h2]
    · show sumRunsBy (deathRows rows) p
          = ((rows.filter (fun d => d.batsman = some p ∧ 16 ≤ d.over)).map
            (fun d => d.batsman_runs)).sum
      unfold sumRunsBy deathRows
      rw [List.filter_filter]
      congr 1
      congr 1
      apply List.filter_congr
      intro d _
      by_cases h1 : d.batsman = some p <;> by_cases h2 : 16 ≤ d.over <;> simp [h1, h2]
  · intro p
    constructor
    · rintro ⟨r, hr, hbp⟩
      unfold oversSplit at hr
      rcases List.mem_map.mp hr with ⟨k, hk, rfl⟩
      have hkp : k = p := hbp
      subst hkp
      rcases List.mem_append.mp hk with hkpp | hkd
      · rcases List.mem_filterMap.mp (mem_sortedDedup.mp hkpp) with ⟨d, hd, hbd⟩
        rcases List.mem_filter.mp hd with ⟨hdr, hdo⟩
        exact ⟨d, hdr, hbd, Or.inl (by simpa using hdo)⟩
      · have hkd' := (List.mem_filter.mp hkd).1
        rcases List.mem_filterMap.mp (mem_sortedDedup.mp hkd') with ⟨d, hd, hbd⟩
        rcases List.mem_filter.mp hd with ⟨hdr, hdo⟩
        exact ⟨d, hdr, hbd, Or.inr (by simpa using hdo)⟩
    · rintro ⟨d, hd, hbd, hcase⟩
      have hppmem : d.over ≤ 6 →
          p ∈ sortedDedup ((ppRows rows).filterMap (fun x => x.batsman)) := by
        intro h6
        apply mem_sortedDedup.mpr
        exact List.mem_filterMap.mpr
          ⟨d, List.mem_filter.mpr ⟨hd, by simpa using h6⟩, hbd⟩
      have hdmem : 16 ≤ d.over →
          p ∈ sortedDedup ((deathRows rows).filterMap (fun x => x.batsman)) := by
        intro h16
        apply mem_sortedDedup.mpr
        exact List.mem_filterMap.mpr
          ⟨d, List.mem_filter.mpr ⟨hd, by simpa using h16⟩, hbd⟩
      have hkeys : p ∈ sortedDedup ((ppRows rows).filterMap (fun x => x.batsman))
          ++ (sortedDedup ((deathRows rows).filterMap (fun x => x.batsman))).filter
            (fun k => ¬ k ∈ sortedDedup ((ppRows rows).filterMap (fun x => x.batsman))) := by
        rcases hcase with h6 | h16
        · exact List.mem_append.mpr (Or.inl (hppmem h6))
        · by_cases hin : p ∈ sortedDedup ((ppRows rows).filterMap (fun x => x.batsman))
          · exact List.mem_append.mpr (Or.inl hin)
          · exact List.mem_append.mpr (Or.inr (List.mem_filter.mpr
              ⟨hdmem h16, by simpa using hin⟩))
      refine ⟨{ batsman := p, powerplay_runs := sumRunsBy (ppRows rows) p,
                death_runs := sumRunsBy (deathRows rows) p }, ?_, rfl⟩
      unfold oversSplit
      exact List.mem_map_of_mem _ hkeys

def exOvers : List Delivery :=
  [{ match_id := 1, over := 1, ball := 1, batsman := some pA, bowler := some pB,
     batsman_runs := 3, is_wicket := 0 },
   { match_id := 1, over := 20, ball := 1, batsman := some pB, bowler := some pA,
     batsman_runs := 2, is_wicket := 0 },
   { match_id := 1, over := 10, ball := 1, batsman := some pA, bowler := some pB,
     batsman_runs := 7, is_wicket := 0 }]

theorem c7_witness :
    ({ batsman := pA, powerplay_runs := 3, death_runs := 0 } : OversRow) ∈ oversSplit exOvers ∧
    ({ batsman := pA, powerplay_runs := 3, death_runs := 0 } : OversRow).powerplay_runs
      = ((exOvers.filter (fun d => d.batsman = some pA ∧ d.over ≤ 6)).map
        (fun d => d.batsman_runs)).sum :=
  ⟨by decide, ((c7_overs_split exOvers).2.1 _ (by decide)).1⟩

/-! ### Claim C8: topN and the Best XI shortlists -/

/-- Claim C8: for every table, key and `n`, `topN` returns exactly
`min n (length of the input)` rows, sorted non-increasingly by the key;
the Best XI shortlists are its instantiations — 6 batsmen by
`total_runs` with `strike_rate` as tie-break and 5 bowlers by
`wickets`, both descending. -/
theorem c8_topN :
    (∀ (α κ : Type) [LinearOrder κ] (key : α → κ) (n : Nat) (rows : List α),
      (topN key n rows).length = min n rows.length ∧
      (topN key n rows).Sorted (descRel key)) ∧
    (∀ perf : List FinalRow,
      bestBatsmen perf = topN batKey 6 perf ∧
      (bestBatsmen perf).length = min 6 perf.length ∧
      (bestBatsmen perf).Sorted (descRel batKey)) ∧
    (∀ bowl : List BowlingRow,
      bestBowlers bowl = topN (fun w => w.wickets) 5 bowl ∧
      (bestBowlers bowl).length = min 5 bowl.length ∧
      (bestBowlers bowl).Sorted (descRel (fun w => w.wickets))) := by
  have hgen : ∀ (α κ : Type) [LinearOrder κ] (key : α → κ) (n : Nat) (rows : List α),
      (topN key n rows).length = min n rows.length ∧
      (topN key n rows).Sorted (descRel key) := by
    intro α κ _ key n rows
    constructor
    · unfold topN sortDescBy
      rw [List.length_take, List.length_insertionSort]
    · unfold topN sortDescBy
      exact List.Pairwise.sublist (List.take_sublist n _)
        (List.sorted_insertionSort (descRel key) rows)
  exact ⟨hgen,
    fun perf => ⟨rfl, (hgen FinalRow (Lex (Nat × ℚ)) batKey 6 perf).1,
      (hgen FinalRow (Lex (Nat × ℚ)) batKey 6 perf).2⟩,
    fun bowl => ⟨rfl, (hgen BowlingRow Nat (fun w => w.wickets) 5 bowl).1,
      (hgen BowlingRow Nat (fun w => w.wickets) 5 bowl).2⟩⟩

theorem c8_witness :
    (bestBowlers [{ bowler := pB, wickets := 1 }]).length
      = min 5 [({ bowler := pB, wickets := 1 } : BowlingRow)].length :=
  (c8_topN.2.2 [{ bowler := pB, wickets := 1 }]).2.1

/-! ### Claim C10: every selectable player has exactly one row -/

theorem length_filter_key_map {β : Type} (keyOf : β → Nat) (f : Nat → β)
    (hk : ∀ k, keyOf (f k) = k) :
    ∀ (ks : List Nat), ks.Nodup → ∀ p ∈ ks,
      ((ks.map f).filter (fun b => keyOf b = p)).length = 1 := by
  intro ks
  induction ks with
  | nil => intro _ p hp; exact absurd hp (List.not_mem_nil p)
  | cons k ks ih =>
    intro hnd p hp
    rw [List.map_cons, List.filter_cons]
    by_cases hkp : k = p
    · subst hkp
      have hnil : (ks.map f).filter (fun b => keyOf b = k) = [] := by
        apply List.filter_eq_nil_iff.mpr
        intro b hb
        rcases List.mem_map.mp hb with ⟨q, hq, rfl⟩
        have : q ≠ k := fun hqk => (List.nodup_cons.mp hnd).1 (hqk ▸ hq)
        simp [hk, this]
      simp [hk, hnil]
    · have hp' : p ∈ ks := by
        rcases List.mem_cons.mp hp with h | h
        · exact absurd h.symm hkp
        · exact h
      simpa [hk, hkp] using ih (List.nodup_cons.mp hnd).2 p hp'

/-- Claim C10: every element of the selectable player list (the sorted
distinct non-null batsmen of the season's deliveries) has exactly one
row in the merged performance table, and the comparison lookup
succeeds (`isSome`) for every pair drawn from that list. -/
theorem c10_players_lookup (sqrtQ : ℚ → ℚ) (ms : List MatchRow) (ds : List Delivery)
    (s : Nat) : ∀ p ∈ playersList (seasonData ms ds s),
    ((playerPerf sqrtQ ms ds s).filter (fun r => r.batsman = p)).length = 1 ∧
    ∀ q ∈ playersList (seasonData ms ds s),
      (comparePair (playerPerf sqrtQ ms ds s) p q).isSome = true := by
  have hplayers : playersList (seasonData ms ds s) = battingKeys (seasonData ms ds s) := rfl
  have hcount : ∀ p ∈ battingKeys (seasonData ms ds s),
      ((playerPerf sqrtQ ms ds s).filter (fun r => r.batsman = p)).length = 1 := by
    intro p hp
    rw [playerPerf_eq]
    exact length_filter_key_map (fun r : FinalRow => r.batsman) _ (fun k => rfl)
      (battingKeys (seasonData ms ds s)) (nodup_sortedDedup _) p hp
  have hlk : ∀ p ∈ battingKeys (seasonData ms ds s),
      ∃ r, lookupPerf (playerPerf sqrtQ ms ds s) p = some r := by
    intro p hp
    unfold lookupPerf
    cases hfil : (playerPerf sqrtQ ms ds s).filter (fun r => r.batsman = p) with
    | nil =>
      have := hcount p hp
      rw [hfil] at this
      exact absurd this (by simp)
    | cons a l => exact ⟨a, rfl⟩
  intro p hp
  rw [hplayers] at hp
  refine ⟨hcount p hp, ?_⟩
  intro q hq
  rw [hplayers] at hq
  rcases hlk p hp with ⟨a, ha⟩
  rcases hlk q hq with ⟨b, hb⟩
  unfold comparePair
  rw [ha, hb]
  rfl

theorem c10_witness :
    ((playerPerf (fun x => x) exMatches exDeliveries sY).filter
      (fun r => r.batsman = pA)).length = 1 ∧
    (comparePair (playerPerf (fun x => x) exMatches exDeliveries sY) pA pA).isSome = true :=
  ⟨(c10_players_lookup (fun x => x) exMatches exDeliveries sY pA (by decide)).1,
    (c10_players_lookup (fun x => x) exMatches exDeliveries sY pA (by decide)).2 pA (by decide)⟩
